import Mathlib

/-!
Shallow embedding of the bulloak scaffold emitter
(crates/foundry/src/scaffold/emitter.rs) and of the scaffold command
(crates/bulloak/src/scaffold.rs), together with theorems about the
emitted text and the command's error handling.

Rust strings are modelled as Lean `String`; Rust's panicking
`unreachable!` branches are modelled as `Option.none`; Rust `for` loops
over vectors are modelled as structurally recursive loop functions that
thread the accumulated output string, mirroring the sequence of
`push_str` calls in the source.
-/

namespace Bulloak

/-! ## String helpers -/

/-- Boolean prefix test on lists of characters. -/
def isPrefixOfCL : List Char → List Char → Bool
  | [], _ => true
  | _ :: _, [] => false
  | a :: as, b :: bs => a == b && isPrefixOfCL as bs

/-- Boolean substring test on lists of characters. -/
def containsSubCL (pat : List Char) : List Char → Bool
  | [] => pat.isEmpty
  | b :: bs => isPrefixOfCL pat (b :: bs) || containsSubCL pat bs

/-- Whether `s` starts with `pat` (Rust `str::starts_with`). -/
def strStartsWith (s pat : String) : Bool :=
  isPrefixOfCL pat.data s.data

/-- Whether `s` ends with `pat` (Rust `str::ends_with`). -/
def strEndsWith (s pat : String) : Bool :=
  isPrefixOfCL pat.data.reverse s.data.reverse

/-- Whether `s` contains `pat` as a substring (Rust `str::contains`). -/
def strContains (s pat : String) : Bool :=
  containsSubCL pat.data s.data

/-- Lower-case every character of a string (Rust `str::to_lowercase`,
restricted to the ASCII case folding the naming convention relies on). -/
def lowerStr (s : String) : String :=
  String.mk (s.data.map Char.toLower)

/-- Case-insensitive prefix test: does `s` case-insensitively begin
with `pat`? -/
def startsWithCI (pat s : String) : Bool :=
  isPrefixOfCL (lowerStr pat).data (lowerStr s).data

/-- Concatenation of a list of strings, in order, with no separator. -/
def strJoinL : List String → String
  | [] => ""
  | s :: rest => s ++ strJoinL rest

/-- Rust `str::repeat`: `s` concatenated with itself `n` times. -/
def strRepeat (s : String) (n : Nat) : String :=
  strJoinL (List.replicate n s)

/-- Concatenation of a list of strings with `sep` between consecutive
elements. -/
def sepJoin (sep : String) : List String → String
  | [] => ""
  | [s] => s
  | s :: rest => s ++ sep ++ sepJoin sep rest

/-- Rust `String::pop` (with the popped character discarded): remove the
last character of a string. -/
def popChar (s : String) : String :=
  String.mk s.data.dropLast

/-! ## The HIR data model

The HIR lives in crates/foundry/src/hir (the `Hir` enum together with the
`Root`, `ContractDefinition`, `FunctionDefinition`, `Comment` and
`Statement` structs); the fields used by the emitter are inlined into the
constructors of one inductive type here. -/

/-- Rust `hir::StatementType`: the closed set of generated directives.
Currently only the `vm.skip(true);` marker exists. -/
inductive StatementType where
  | VmSkip
deriving DecidableEq

/-- Rust `hir::FunctionTy`: a generated function is either a Test
function or a Modifier. -/
inductive FunctionTy where
  | Test
  | Modifier
deriving DecidableEq

/-- Rust `hir::Hir` with the structs `Root { children }`,
`ContractDefinition { identifier, children }`, `FunctionDefinition
{ identifier, ty, modifiers, children }`, `Comment { lexeme }` and
`Statement { ty }` inlined as constructor fields. -/
inductive Hir where
  | Root (children : List Hir)
  | Contract (identifier : String) (children : List Hir)
  | Function (identifier : String) (ty : FunctionTy)
      (modifiers : Option (List String)) (children : Option (List Hir))
  | Comment (lexeme : String)
  | Statement (ty : StatementType)

/-- Whether a HIR node is a `Function` node. -/
def isFunctionNode : Hir → Bool
  | .Function _ _ _ _ => true
  | _ => false

/-- Whether a HIR node is a `Contract` node. -/
def isContractNode : Hir → Bool
  | .Contract _ _ => true
  | _ => false

/-! ## Configuration and the emitter state -/

/-- Modelled from the spec: crates/foundry/src/config.rs is not under
src/. Per the spec, the configuration consumed by the core carries the
version string, the indentation width, the skip-statement flag and the
modifier-promotion disable flag. The field names `solidity_version` and
`emit_vm_skip` are those used by the emitter's tests. -/
structure Config where
  solidity_version : String
  indentation : Nat
  emit_vm_skip : Bool
  skip_modifiers : Bool

/-- Modelled from the spec: crates/foundry/src/constants.rs is not under
src/. The fixed internal indentation unit used by `Emitter::new`; its
value, two spaces, is evidenced by every expected output in the
emitter's tests. -/
def INTERNAL_DEFAULT_INDENTATION : Nat := 2

/-- The `Emitter` struct of emitter.rs: the indentation level and the
Solidity version for the pragma directive. -/
structure Emitter where
  indent : Nat
  solidity_version : String

/-- `Emitter::new`: build an emitter from a configuration. Note that
`indent` is set to the fixed `INTERNAL_DEFAULT_INDENTATION`, not to a
value taken from `cfg`. -/
def Emitter.new (cfg : Config) : Emitter :=
  { indent := INTERNAL_DEFAULT_INDENTATION,
    solidity_version := cfg.solidity_version }

/-- `Emitter::indent` (the method): the string used to indent the
emitted code, `" ".repeat(self.indent)`. -/
def Emitter.indentStr (e : Emitter) : String :=
  strRepeat " " e.indent

/-- Modelled from the spec: `bulloak_syntax::utils::sanitize` is not
under src/. Per the sanitization law, every character not allowed in an
identifier is replaced by the fixed filler `_`; evidenced by the
emitter's tests (`Fi-eTest` emits as `Fi_eTest`). -/
def sanitize (s : String) : String :=
  String.mk (s.data.map (fun c => if c.isAlphanum || c == '_' then c else '_'))

/-! ## The emitter visitors (`EmitterI` in emitter.rs) -/

namespace EmitterI

/-- `EmitterI::emit_contract_header`: the contract declaration line with
the sanitized contract name. -/
def emit_contract_header (identifier : String) : String :=
  "contract " ++ sanitize identifier ++ " \x7B\n"

/-- `EmitterI::emit_modifier`: a modifier declaration with the fixed
body `_;`, followed by a blank line. -/
def emit_modifier (e : Emitter) (modifier : String) : String :=
  let indentation := e.indentStr
  indentation ++ "modifier " ++ modifier ++ "() \x7B\n"
    ++ (strRepeat indentation 2 ++ "_;\n")
    ++ (indentation ++ "\x7D\n")
    ++ "\n"

/-- The loop over `function.modifiers` in `EmitterI::emit_fn_header`:
push each modifier on its own line at body indentation. -/
def modifiers_loop (fn_body_indentation : String) (acc : String) :
    List String → String
  | [] => acc
  | m :: rest =>
      modifiers_loop fn_body_indentation
        (acc ++ (fn_body_indentation ++ m ++ "\n")) rest

/-- `EmitterI::emit_fn_header`: the function signature, visibility,
applicable modifiers, and opening brace. -/
def emit_fn_header (e : Emitter) (identifier : String)
    (modifiers : Option (List String)) : String :=
  let fn_indentation := e.indentStr
  let fn_body_indentation := strRepeat fn_indentation 2
  let has_modifiers := modifiers.isSome
  let emitted :=
    if has_modifiers then
      (fn_indentation ++ "function " ++ identifier ++ "()\n")
        ++ (fn_body_indentation ++ "external\n")
    else
      (fn_indentation ++ "function " ++ identifier ++ "()") ++ " external"
  let emitted :=
    match modifiers with
    | some ms => modifiers_loop fn_body_indentation emitted ms
    | none => emitted
  if has_modifiers then emitted ++ (fn_indentation ++ "\x7B\n")
  else emitted ++ " \x7B\n"

/-- `Visitor::visit_comment` for the emitter: one comment line at twice
the indentation unit. -/
def visit_comment (e : Emitter) (lexeme : String) : String :=
  strRepeat e.indentStr 2 ++ ("// " ++ lexeme ++ "\n")

/-- `Visitor::visit_statement` for the emitter: the string form of each
supported statement. -/
def visit_statement (e : Emitter) (ty : StatementType) : String :=
  match ty with
  | .VmSkip => strRepeat e.indentStr 2 ++ "vm.skip(true);\n"

/-- The loop over `function.children` in `Visitor::visit_function`:
comments and statements are emitted; any other child is skipped. -/
def fn_children_loop (e : Emitter) (acc : String) : List Hir → String
  | [] => acc
  | child :: rest =>
      fn_children_loop e
        (match child with
         | .Comment lexeme => acc ++ visit_comment e lexeme
         | .Statement sty => acc ++ visit_statement e sty
         | _ => acc) rest

/-- `Visitor::visit_function` for the emitter: a Modifier renders via
`emit_modifier` (its children are not visited); a Test function renders
its header, its comment and statement children, and a closing brace
followed by a blank line. -/
def visit_function (e : Emitter) (identifier : String) (ty : FunctionTy)
    (modifiers : Option (List String)) (children : Option (List Hir)) :
    String :=
  match ty with
  | .Modifier => emit_modifier e identifier
  | .Test =>
      let emitted := emit_fn_header e identifier modifiers
      let emitted :=
        match children with
        | some cs => fn_children_loop e emitted cs
        | none => emitted
      emitted ++ (e.indentStr ++ "\x7D\n\n")

/-- The loop over `contract.children` in `Visitor::visit_contract`:
only `Function` children are visited; every other child is skipped. -/
def contract_loop (e : Emitter) (acc : String) : List Hir → String
  | [] => acc
  | child :: rest =>
      contract_loop e
        (match child with
         | .Function id ty ms cs => acc ++ visit_function e id ty ms cs
         | _ => acc) rest

/-- `Visitor::visit_contract` for the emitter: the contract header, the
function children, then removal of the last character (the extra
newline from emitting functions) and the closing brace. -/
def visit_contract (e : Emitter) (identifier : String)
    (children : List Hir) : String :=
  popChar (contract_loop e (emit_contract_header identifier) children)
    ++ "\x7D"

/-- The loop over `root.children` in `Visitor::visit_root`: a
`Contract` child is visited; any other child hits `unreachable!`,
modelled as `none`. -/
def visit_root_loop (e : Emitter) (acc : String) : List Hir → Option String
  | [] => some acc
  | child :: rest =>
      match child with
      | .Contract id cs =>
          visit_root_loop e (acc ++ visit_contract e id cs) rest
      | _ => none

/-- `Visitor::visit_root` for the emitter: the license header, the
pragma directive, then the contract children. -/
def visit_root (e : Emitter) (children : List Hir) : Option String :=
  visit_root_loop e
    ("// SPDX-License-Identifier: UNLICENSED\n"
      ++ ("pragma solidity " ++ e.solidity_version ++ ";\n\n"))
    children

/-- `EmitterI::emit`: dispatch on the top-level HIR node. A top-level
`Statement` hits `unreachable!` in the source ("a statement can't be a
top-level source unit in Solidity"), modelled as `none`. -/
def emit (e : Emitter) : Hir → Option String
  | .Root children => visit_root e children
  | .Contract id cs => some (visit_contract e id cs)
  | .Function id ty ms cs => some (visit_function e id ty ms cs)
  | .Comment lexeme => some (visit_comment e lexeme)
  | .Statement _ => none

end EmitterI

/-- `Emitter::emit`: emit Solidity code from the given HIR by handing
off to the internal emitter. -/
def Emitter.emit (e : Emitter) (hir : Hir) : Option String :=
  EmitterI.emit e hir

/-- A sample configuration used to instantiate universally quantified
theorems at concrete inputs. -/
def sampleConfig : Config :=
  { solidity_version := "0.8.0", indentation := 4,
    emit_vm_skip := false, skip_modifiers := false }

/-! ## Derived views of the emitted text -/

/-- The text contributed by one child of a Test function's body:
comments and statements render via their visitors, anything else
contributes nothing. -/
def childText (e : Emitter) : Hir → String
  | .Comment lexeme => EmitterI.visit_comment e lexeme
  | .Statement sty => EmitterI.visit_statement e sty
  | _ => ""

/-- The text contributed by a `Function` child of a contract; a
non-function child contributes nothing. -/
def fnNodeText (e : Emitter) : Hir → String
  | .Function id ty ms cs => EmitterI.visit_function e id ty ms cs
  | _ => ""

/-- The text of one emitted function without the trailing blank-line
separator: `EmitterI.visit_function` always produces `fnCore` followed
by one extra newline. -/
def fnCore (e : Emitter) : Hir → String
  | .Function identifier ty modifiers children =>
      match ty with
      | .Modifier =>
          e.indentStr ++ "modifier " ++ identifier ++ "() \x7B\n"
            ++ (strRepeat e.indentStr 2 ++ "_;\n")
            ++ (e.indentStr ++ "\x7D\n")
      | .Test =>
          EmitterI.emit_fn_header e identifier modifiers
            ++ strJoinL ((children.getD []).map (childText e))
            ++ (e.indentStr ++ "\x7D\n")
  | _ => ""

/-! ## The skip flag (HIR Builder side) -/

/-- Modelled from the spec: the HIR Builder (crates/foundry/src/hir, not
under src/) appends, when the skip flag is set, exactly one `VmSkip`
`Statement` as the last child of every Test function; with the flag
unset the children are left unchanged, and Modifier functions never
receive a `Statement`. -/
def addVmSkipChildren (emit_vm_skip : Bool) (children : Option (List Hir)) :
    Option (List Hir) :=
  if emit_vm_skip then
    some (children.getD [] ++ [Hir.Statement StatementType.VmSkip])
  else children

/-! ## The naming convention (HIR Builder side)

The HIR Builder (crates/foundry/src/hir, not under src/) derives
function and modifier identifiers from the pending chain of Condition
phrases; the definitions below are modelled from the spec (§4.3
Naming / Revert convention). -/

/-- Modelled from the spec: the connector keyword of a Condition
phrase, `when` or `given`. -/
inductive Connector where
  | When
  | Given
deriving DecidableEq

/-- Modelled from the spec: a Condition phrase split into its leading
connector keyword and the remaining words. -/
structure ConditionPhrase where
  connector : Connector
  words : List String

/-- Modelled from the spec: capitalize a word (upper-case its first
character). -/
def capitalize (w : String) : String :=
  match w.data with
  | [] => ""
  | c :: cs => String.mk (c.toUpper :: cs)

/-- Modelled from the spec: the connector rendered capitalized, as used
when a phrase is folded into a function name. -/
def connectorCap : Connector → String
  | .When => "When"
  | .Given => "Given"

/-- Modelled from the spec: the connector rendered lower-case, as used
for the first segment of a modifier identifier. -/
def connectorLower : Connector → String
  | .When => "when"
  | .Given => "given"

/-- Modelled from the spec: a transformed phrase folded into a function
name — the connector capitalized, then every remaining word
capitalized, concatenated with no separators. -/
def foldedSegment (p : ConditionPhrase) : String :=
  connectorCap p.connector ++ strJoinL (p.words.map capitalize)

/-- Modelled from the spec: the name chain rendered with its leading
connector, folded phrases concatenated in encounter order. -/
def chainWithConnector (chain : List ConditionPhrase) : String :=
  strJoinL (chain.map foldedSegment)

/-- Modelled from the spec: the name chain rendered without its leading
connector word, as used after the `test_RevertWhen_` prefix. -/
def chainWithoutLeadingConnector : List ConditionPhrase → String
  | [] => ""
  | p :: rest => strJoinL (p.words.map capitalize) ++ chainWithConnector rest

/-- Modelled from the spec (§4.3 Revert convention): the identifier of
a Test function, decided by inspecting only the first Action of its
group in document order. -/
def testIdentifier (chain : List ConditionPhrase) (actions : List String) :
    String :=
  match actions with
  | [] => "test_" ++ chainWithConnector chain
  | first :: _ =>
      if startsWithCI "it should revert" first then
        "test_RevertWhen_" ++ chainWithoutLeadingConnector chain
      else
        "test_" ++ chainWithConnector chain

/-- Modelled from the spec: the identifier of a Modifier — the chain of
pending phrases plus the promoted Condition's own phrase, with the
leading connector rendered lower-case. -/
def modifierIdentifier : List ConditionPhrase → String
  | [] => ""
  | p :: rest =>
      connectorLower p.connector ++ strJoinL (p.words.map capitalize)
        ++ chainWithConnector rest

/-! ## The scaffold command (crates/bulloak/src/scaffold.rs)

The command's effects are embedded with explicit state: file paths and
errors are strings, the file system and the external collaborators
(reader, translator, formatter) are function parameters, and
`process::exit(1)` / printed warnings are recorded in result fields. -/

namespace Scaffold

/-- The `filter_map` over the expanded input files in `Scaffold::run`:
process each file in order and keep the per-file failures, pairing each
failure with its file. -/
def runCollect (process : String → Except String Unit) :
    List String → List (String × String)
  | [] => []
  | f :: rest =>
      (match process f with
       | .error e => [(f, e)]
       | .ok _ => []) ++ runCollect process rest

/-- The observable outcome of `Scaffold::run`: the failures passed to
`report_errors`, and the exit code when `std::process::exit` is reached
(`none` when the command returns normally). -/
structure RunOutcome where
  reported : List (String × String)
  exitCode : Option Nat

/-- `Scaffold::run` over already-expanded input files: collect every
per-file failure; if any occurred, report them all together and exit
with status 1. -/
def run (process : String → Except String Unit) (files : List String) :
    RunOutcome :=
  let errors := runCollect process files
  if errors.isEmpty then { reported := [], exitCode := none }
  else { reported := errors, exitCode := some 1 }

/-- The observable outcome of a successful `Scaffold::process_file`:
the text used downstream and whether the formatter-failure warning was
printed. -/
structure ProcessOutput where
  text : String
  fmtWarned : Bool
deriving DecidableEq

/-- `Scaffold::process_file`: read the input file, scaffold the
Solidity code, then format it; a formatter failure falls back to the
unformatted text with a warning (`unwrap_or_else`). -/
def process_file (readFn scaffoldFn : String → Except String String)
    (fmtFn : String → Except String String) (file : String) :
    Except String ProcessOutput := do
  let text ← readFn file
  let emitted ← scaffoldFn text
  match fmtFn emitted with
  | .ok formatted => pure { text := formatted, fmtWarned := false }
  | .error _ => pure { text := emitted, fmtWarned := true }

/-- The observable outcome of `Scaffold::write_file`: the destination
file's resulting contents, whether the skip warning was printed, and
whether a file-system write error was printed. The Rust function
returns `()` in every case. -/
structure WriteOutcome where
  finalContents : Option String
  warnedSkip : Bool
  reportedWriteError : Bool
deriving DecidableEq

/-- `Scaffold::write_file`: skip (with a warning) when the destination
exists and `--force-write` was not passed; otherwise write, printing
any file-system error. `existing` is the destination's current
contents, `writeOk` whether the underlying `fs::write` succeeds. -/
def write_file (force_write : Bool) (existing : Option String)
    (writeOk : Bool) (text : String) : WriteOutcome :=
  if existing.isSome && !force_write then
    { finalContents := existing, warnedSkip := true,
      reportedWriteError := false }
  else if writeOk then
    { finalContents := some text, warnedSkip := false,
      reportedWriteError := false }
  else
    { finalContents := existing, warnedSkip := false,
      reportedWriteError := true }

end Scaffold

/-- A concrete per-file processor used to instantiate the run theorem:
fails on every file except `b.tree`. -/
def witnessProcess : String → Except String Unit
  | "b.tree" => Except.ok ()
  | f => Except.error ("could not scaffold " ++ f)

/-- A concrete reader used to instantiate the process-file theorem. -/
def witnessReadFn : String → Except String String :=
  fun _ => Except.ok "FileTest tree"

/-- A concrete translator used to instantiate the process-file
theorem. -/
def witnessScaffoldFn : String → Except String String :=
  fun _ => Except.ok "contract FileTest \x7B\x7D"

/-- A concrete always-failing formatter used to instantiate the
process-file theorem. -/
def witnessFmtFn : String → Except String String :=
  fun _ => Except.error "formatter crashed"

/-! ## Helper lemmas -/

theorem strData_append (a b : String) : (a ++ b).data = a.data ++ b.data := by
  cases a; cases b; rfl

theorem strAppend_assoc (a b c : String) : a ++ b ++ c = a ++ (b ++ c) := by
  apply String.ext
  simp only [strData_append, List.append_assoc]

theorem strEmpty_append (s : String) : "" ++ s = s := by
  cases s; rfl

theorem strAppend_empty (s : String) : s ++ "" = s := by
  apply String.ext
  simp only [strData_append]
  exact List.append_nil _

theorem isPrefixOfCL_append (l m : List Char) :
    isPrefixOfCL l (l ++ m) = true := by
  induction l with
  | nil => rfl
  | cons a as ih => simp [isPrefixOfCL, ih]

theorem isPrefixOfCL_mismatch (pre : List Char) (a b : Char)
    (p q : List Char) (hab : (a == b) = false) :
    isPrefixOfCL (pre ++ a :: p) (pre ++ b :: q) = false := by
  induction pre with
  | nil => simp [isPrefixOfCL, hab]
  | cons c cs ih => simp [isPrefixOfCL, ih]

theorem strStartsWith_append_self (p x : String) :
    strStartsWith (p ++ x) p = true := by
  simp [strStartsWith, strData_append, isPrefixOfCL_append]

theorem strEndsWith_append_self (y p : String) :
    strEndsWith (y ++ p) p = true := by
  simp [strEndsWith, strData_append, List.reverse_append, isPrefixOfCL_append]

theorem strJoinL_cons (s : String) (l : List String) :
    strJoinL (s :: l) = s ++ strJoinL l := rfl

theorem modifiers_loop_eq (fbi acc : String) (ms : List String) :
    EmitterI.modifiers_loop fbi acc ms
      = acc ++ strJoinL (ms.map (fun m => fbi ++ m ++ "\n")) := by
  induction ms generalizing acc with
  | nil => simp [EmitterI.modifiers_loop, strJoinL, strAppend_empty]
  | cons m rest ih =>
      simp [EmitterI.modifiers_loop, strJoinL, ih, strAppend_assoc]

theorem fn_children_loop_eq (e : Emitter) (acc : String) (l : List Hir) :
    EmitterI.fn_children_loop e acc l
      = acc ++ strJoinL (l.map (childText e)) := by
  induction l generalizing acc with
  | nil => simp [EmitterI.fn_children_loop, strJoinL, strAppend_empty]
  | cons c rest ih =>
      cases c <;>
        simp [EmitterI.fn_children_loop, strJoinL, childText, ih,
          strAppend_assoc, strEmpty_append]

theorem contract_loop_eq (e : Emitter) (acc : String) (l : List Hir) :
    EmitterI.contract_loop e acc l
      = acc ++ strJoinL ((l.filter isFunctionNode).map (fnNodeText e)) := by
  induction l generalizing acc with
  | nil => simp [EmitterI.contract_loop, strJoinL, strAppend_empty]
  | cons c rest ih =>
      cases c <;>
        simp [EmitterI.contract_loop, isFunctionNode, fnNodeText,
          strJoinL, ih, strAppend_assoc]

theorem visit_function_eq_core (e : Emitter) (identifier : String)
    (ty : FunctionTy) (modifiers : Option (List String))
    (children : Option (List Hir)) :
    EmitterI.visit_function e identifier ty modifiers children
      = fnCore e (Hir.Function identifier ty modifiers children) ++ "\n" := by
  have hsplit : ("\x7D\n\n" : String) = "\x7D\n" ++ "\n" := rfl
  cases ty with
  | Modifier => rfl
  | Test =>
      cases children with
      | none =>
          simp [EmitterI.visit_function, fnCore, strJoinL, hsplit,
            strAppend_assoc, strAppend_empty]
      | some cs =>
          simp [EmitterI.visit_function, fnCore, fn_children_loop_eq,
            hsplit, strAppend_assoc]

theorem strJoinL_map_newline (xs : List String) (hx : xs ≠ []) :
    strJoinL (xs.map (fun s => s ++ "\n")) = sepJoin "\n" xs ++ "\n" := by
  induction xs with
  | nil => cases hx rfl
  | cons s rest ih =>
      cases rest with
      | nil => simp [strJoinL, sepJoin, strAppend_empty]
      | cons t rest2 =>
          have h2 := ih (by simp)
          simp [strJoinL] at h2
          simp [strJoinL, sepJoin, h2, strAppend_assoc]

theorem popChar_append_newline (t : String) : popChar (t ++ "\n") = t := by
  cases t with
  | mk l =>
      show String.mk ((l ++ ['\n']).dropLast) = String.mk l
      rw [List.dropLast_concat]

theorem strJoinL_append (l1 l2 : List String) :
    strJoinL (l1 ++ l2) = strJoinL l1 ++ strJoinL l2 := by
  induction l1 with
  | nil => simp [strJoinL, strEmpty_append]
  | cons s rest ih => simp [strJoinL, ih, strAppend_assoc]

theorem visit_root_loop_isSome (e : Emitter) (l : List Hir) (acc : String)
    (h : ∀ c ∈ l, isContractNode c = true) :
    (EmitterI.visit_root_loop e acc l).isSome = true := by
  induction l generalizing acc with
  | nil => rfl
  | cons c rest ih =>
      cases c with
      | Contract id cs =>
          simp only [EmitterI.visit_root_loop]
          exact ih _ (fun x hx => h x (List.mem_cons_of_mem _ hx))
      | Root cs =>
          exact absurd (h _ (List.mem_cons_self _ _))
            (by simp [isContractNode])
      | Function id ty ms cs =>
          exact absurd (h _ (List.mem_cons_self _ _))
            (by simp [isContractNode])
      | Comment lexeme =>
          exact absurd (h _ (List.mem_cons_self _ _))
            (by simp [isContractNode])
      | Statement sty =>
          exact absurd (h _ (List.mem_cons_self _ _))
            (by simp [isContractNode])

theorem strStartsWith_test_prefix_ne (c : Connector) (ws : List String)
    (rest : List ConditionPhrase) :
    strStartsWith ("test_" ++ chainWithConnector (⟨c, ws⟩ :: rest))
      "test_RevertWhen_" = false := by
  have hpat : ("test_RevertWhen_" : String).data
      = ("test_" : String).data ++ 'R' :: ("evertWhen_" : String).data := rfl
  cases c with
  | When =>
      have hw : ("When" : String).data = 'W' :: ("hen" : String).data := rfl
      rw [strStartsWith, hpat]
      simp only [strData_append, chainWithConnector, List.map_cons, strJoinL,
        foldedSegment, connectorCap, hw, List.cons_append, List.append_assoc]
      exact isPrefixOfCL_mismatch _ 'R' 'W' _ _ (by decide)
  | Given =>
      have hg : ("Given" : String).data = 'G' :: ("iven" : String).data := rfl
      rw [strStartsWith, hpat]
      simp only [strData_append, chainWithConnector, List.map_cons, strJoinL,
        foldedSegment, connectorCap, hg, List.cons_append, List.append_assoc]
      exact isPrefixOfCL_mismatch _ 'R' 'G' _ _ (by decide)

theorem modifierIdentifier_no_revert_prefix (c : Connector)
    (ws : List String) (rest : List ConditionPhrase) :
    strStartsWith (modifierIdentifier (⟨c, ws⟩ :: rest)) "RevertWhen_"
      = false := by
  cases c with
  | When =>
      have hw : ("when" : String).data = 'w' :: ("hen" : String).data := rfl
      rw [strStartsWith]
      simp only [modifierIdentifier, connectorLower, strData_append, hw,
        List.cons_append, List.append_assoc]
      exact isPrefixOfCL_mismatch [] 'R' 'w' _ _ (by decide)
  | Given =>
      have hg : ("given" : String).data = 'g' :: ("iven" : String).data := rfl
      rw [strStartsWith]
      simp only [modifierIdentifier, connectorLower, strData_append, hg,
        List.cons_append, List.append_assoc]
      exact isPrefixOfCL_mismatch [] 'R' 'g' _ _ (by decide)

/-! ## Claim theorems -/

/-- Claim C2, counterexample: the revert-naming law in its substring
form fails — a Condition phrase that itself contains the word
`revertWhen_` capitalizes to `RevertWhen_` inside the identifier of a
Test function whose first emitted comment does not begin with "it
should revert", so containment holds without the revert condition. -/
theorem revert_containment_law_fails :
    strContains
        (testIdentifier [⟨Connector.When, ["revertWhen_", "happens"]⟩]
          ["it should work"])
        "RevertWhen_" = true
    ∧ startsWithCI "it should revert" "it should work" = false := by
  exact ⟨rfl, rfl⟩

/-- Claim C2, amended: for every Condition chain, a Test function's
identifier begins with `test_RevertWhen_` exactly when the first
emitted comment of its group (the first Action in document order)
case-insensitively begins with "it should revert"; the remaining
Actions of the group never affect the identifier; and a Modifier
identifier never receives the `RevertWhen_` prefix. -/
theorem revert_prefix_law (c : Connector) (ws : List String)
    (rest : List ConditionPhrase) (first : String)
    (acts acts' : List String) :
    (strStartsWith (testIdentifier (⟨c, ws⟩ :: rest) (first :: acts))
        "test_RevertWhen_"
      = startsWithCI "it should revert" first)
    ∧ testIdentifier (⟨c, ws⟩ :: rest) (first :: acts)
        = testIdentifier (⟨c, ws⟩ :: rest) (first :: acts')
    ∧ strStartsWith (modifierIdentifier (⟨c, ws⟩ :: rest)) "RevertWhen_"
        = false := by
  refine ⟨?_, rfl, modifierIdentifier_no_revert_prefix c ws rest⟩
  cases hci : startsWithCI "it should revert" first with
  | true => simp [testIdentifier, hci, strStartsWith_append_self]
  | false =>
      simp only [testIdentifier, hci, Bool.false_eq_true, if_false]
      exact strStartsWith_test_prefix_ne c ws rest

/-- Claim C1, counterexample: emitting an HIR whose top-level node is a
`Statement` does not return a string — it hits the `unreachable!` panic
of `EmitterI::emit` (modelled as `none`), as the repository's own
`should_panic` test `with_vm_skip_top_level_statement` documents. -/
theorem emit_top_level_statement_panics :
    Emitter.emit (Emitter.new sampleConfig)
      (Hir.Statement StatementType.VmSkip) = none := rfl

/-- Claim C1, amended: `Emitter::emit` returns a string for every HIR
whose top-level node is a `Root` (with only `Contract` children, the
data-model invariant), a `Contract`, a `Function` or a `Comment`; a
top-level `Statement` panics instead of returning. -/
theorem emit_total_except_top_level_statement (e : Emitter) (h : Hir)
    (hok : match h with
           | Hir.Statement _ => False
           | Hir.Root children => ∀ c ∈ children, isContractNode c = true
           | _ => True) :
    (Emitter.emit e h).isSome = true := by
  cases h with
  | Root children =>
      simp only [Emitter.emit, EmitterI.emit, EmitterI.visit_root]
      exact visit_root_loop_isSome e children _ hok
  | Contract id cs => rfl
  | Function id ty ms cs => rfl
  | Comment lexeme => rfl
  | Statement sty => exact hok.elim

/-- Witness for the amended Claim C1 theorem at a concrete HIR. -/
theorem emit_total_except_top_level_statement_witness :
    (Emitter.emit (Emitter.new sampleConfig)
        (Hir.Root [Hir.Contract "FileTest"
          [Hir.Function "test_A" FunctionTy.Test none none]])).isSome
      = true :=
  emit_total_except_top_level_statement _ _ (by decide)

/-- Claim C3: for every function definition with a present modifier
list, the emitted header puts the signature on its own line, the
visibility keyword `external` on the next line at body indentation,
then each modifier identifier one per line at that same indentation in
list order, then the opening brace; with no modifier list the
visibility keyword is appended inline on the signature line followed by
the opening brace. -/
theorem emit_fn_header_modifier_layout (e : Emitter) (identifier : String)
    (ms : List String) :
    EmitterI.emit_fn_header e identifier (some ms)
      = e.indentStr ++ "function " ++ identifier ++ "()\n"
        ++ strRepeat e.indentStr 2 ++ "external\n"
        ++ strJoinL (ms.map (fun m => strRepeat e.indentStr 2 ++ m ++ "\n"))
        ++ e.indentStr ++ "\x7B\n"
    ∧ EmitterI.emit_fn_header e identifier none
      = e.indentStr ++ "function " ++ identifier ++ "()" ++ " external"
        ++ " \x7B\n" := by
  constructor
  · simp [EmitterI.emit_fn_header, modifiers_loop_eq, strAppend_assoc]
  · rfl

/-- Claim C4: a Modifier-kind function always renders with body exactly
`_;` and its children are never emitted; with the skip flag set the
builder appends one `VmSkip` statement to a Test function's children,
and the emitted Test body then ends with the single fixed line
`vm.skip(true);` directly before the closing brace. -/
theorem vm_skip_last_line_and_not_in_modifier (e : Emitter)
    (identifier : String) (ms : Option (List String))
    (comments : List String) (cs cs' : Option (List Hir)) :
    EmitterI.visit_function e identifier FunctionTy.Modifier ms cs
      = EmitterI.visit_function e identifier FunctionTy.Modifier ms cs'
    ∧ EmitterI.visit_function e identifier FunctionTy.Modifier ms cs
      = e.indentStr ++ "modifier " ++ identifier ++ "() \x7B\n"
        ++ (strRepeat e.indentStr 2 ++ "_;\n")
        ++ (e.indentStr ++ "\x7D\n") ++ "\n"
    ∧ EmitterI.visit_function e identifier FunctionTy.Test ms
        (addVmSkipChildren true (some (comments.map Hir.Comment)))
      = EmitterI.emit_fn_header e identifier ms
        ++ strJoinL (comments.map (fun lexeme =>
            EmitterI.visit_comment e lexeme))
        ++ (strRepeat e.indentStr 2 ++ "vm.skip(true);\n")
        ++ (e.indentStr ++ "\x7D\n\n") := by
  refine ⟨rfl, rfl, ?_⟩
  simp [EmitterI.visit_function, addVmSkipChildren, fn_children_loop_eq,
    List.map_append, strJoinL_append, List.map_map, childText,
    EmitterI.visit_statement, strJoinL, strAppend_assoc, strAppend_empty]
  rfl

/-- Claim C5, counterexample: the configuration's indentation width is
not used — `Emitter::new` sets the indentation to the fixed internal
default, so a configuration asking for width 4 still gets 2-space
units (4 spaces at body depth). -/
theorem emitter_ignores_config_indentation :
    (Emitter.new sampleConfig).indent ≠ sampleConfig.indentation
    ∧ EmitterI.visit_comment (Emitter.new sampleConfig) "x"
        = "    // x\n" := by
  exact ⟨by decide, rfl⟩

/-- Claim C5, amended: for every configuration, `Emitter::new` fixes
the indentation width at `INTERNAL_DEFAULT_INDENTATION` and takes only
the version string from the configuration. -/
theorem emitter_new_fixed_indentation (cfg : Config) :
    (Emitter.new cfg).indent = INTERNAL_DEFAULT_INDENTATION
    ∧ (Emitter.new cfg).solidity_version = cfg.solidity_version :=
  ⟨rfl, rfl⟩

/-- Claim C9: when the destination file exists and `--force-write` was
not given, the existing contents are left unchanged, the skip warning
is printed and no error is produced; and whenever the underlying write
succeeds no error is reported, so an existing file is never an error. -/
theorem write_file_existing_skip (old text : String) (writeOk : Bool) :
    Scaffold.write_file false (some old) writeOk text
      = { finalContents := some old, warnedSkip := true,
          reportedWriteError := false }
    ∧ ∀ (force : Bool) (existing : Option String),
        (Scaffold.write_file force existing true text).reportedWriteError
          = false := by
  refine ⟨rfl, ?_⟩
  intro force existing
  cases force <;> cases existing <;> rfl

/-- Claim C10: the text emitted for a contract depends only on its
identifier and its `Function` children — any two child lists with the
same `Function` nodes emit identically, so `Root`, `Contract`,
`Comment` and `Statement` children of a contract are silently
ignored. -/
theorem visit_contract_ignores_non_function_children (e : Emitter)
    (identifier : String) (c1 c2 : List Hir)
    (h : c1.filter isFunctionNode = c2.filter isFunctionNode) :
    EmitterI.visit_contract e identifier c1
      = EmitterI.visit_contract e identifier c2 := by
  simp [EmitterI.visit_contract, contract_loop_eq, h]

/-- Claim C6: for a contract with at least one function child, the
emitted text is the contract header, the functions' texts joined with
exactly one blank line between consecutive functions (each function's
text ends with its own newline and one extra empty line separates it
from the next), and the closing brace directly after the last
function's text with no blank line before it; moreover every
function's text ends in a closing brace line. -/
theorem visit_contract_blank_line_separation (e : Emitter)
    (identifier : String) (children : List Hir)
    (h : (children.filter isFunctionNode).isEmpty = false) :
    EmitterI.visit_contract e identifier children
      = EmitterI.emit_contract_header identifier
        ++ sepJoin "\n" ((children.filter isFunctionNode).map (fnCore e))
        ++ "\x7D"
    ∧ ∀ f ∈ children.filter isFunctionNode,
        strEndsWith (fnCore e f) "\x7D\n" = true := by
  constructor
  · rw [EmitterI.visit_contract, contract_loop_eq]
    have hmap : (children.filter isFunctionNode).map (fnNodeText e)
        = ((children.filter isFunctionNode).map (fnCore e)).map
            (fun s => s ++ "\n") := by
      rw [List.map_map]
      apply List.map_congr_left
      intro f hf
      have hfn := (List.mem_filter.mp hf).2
      cases f with
      | Function id ty ms cs =>
          exact visit_function_eq_core e id ty ms cs
      | Root cs => simp [isFunctionNode] at hfn
      | Contract id cs => simp [isFunctionNode] at hfn
      | Comment lexeme => simp [isFunctionNode] at hfn
      | Statement sty => simp [isFunctionNode] at hfn
    have hne : (children.filter isFunctionNode).map (fnCore e) ≠ [] := by
      intro hcontra
      rw [List.map_eq_nil_iff] at hcontra
      rw [hcontra] at h
      simp [List.isEmpty] at h
    rw [hmap, strJoinL_map_newline _ hne, ← strAppend_assoc,
      popChar_append_newline]
  · intro f hf
    have hfn := (List.mem_filter.mp hf).2
    cases f with
    | Function id ty ms cs =>
        cases ty with
        | Modifier =>
            simp only [fnCore, ← strAppend_assoc]
            exact strEndsWith_append_self _ _
        | Test =>
            simp only [fnCore, ← strAppend_assoc]
            exact strEndsWith_append_self _ _
    | Root cs => simp [isFunctionNode] at hfn
    | Contract id cs => simp [isFunctionNode] at hfn
    | Comment lexeme => simp [isFunctionNode] at hfn
    | Statement sty => simp [isFunctionNode] at hfn

/-- Witness for the Claim C6 theorem at a concrete contract with two
function children. -/
theorem visit_contract_blank_line_separation_witness :
    EmitterI.visit_contract (Emitter.new sampleConfig) "FileTest"
        [Hir.Function "whenStuffCalled" FunctionTy.Modifier none none,
         Hir.Function "test_WhenStuffCalled" FunctionTy.Test
           (some ["whenStuffCalled"]) none]
      = EmitterI.emit_contract_header "FileTest"
        ++ sepJoin "\n"
          (([Hir.Function "whenStuffCalled" FunctionTy.Modifier none none,
             Hir.Function "test_WhenStuffCalled" FunctionTy.Test
               (some ["whenStuffCalled"]) none].filter
                 isFunctionNode).map (fnCore (Emitter.new sampleConfig)))
        ++ "\x7D"
    ∧ ∀ f ∈ [Hir.Function "whenStuffCalled" FunctionTy.Modifier none none,
             Hir.Function "test_WhenStuffCalled" FunctionTy.Test
               (some ["whenStuffCalled"]) none].filter isFunctionNode,
        strEndsWith (fnCore (Emitter.new sampleConfig) f) "\x7D\n" = true :=
  visit_contract_blank_line_separation _ _ _ rfl

/-- Claim C7 helper: a per-file failure always appears in the list
collected by the `filter_map` of `Scaffold::run`, whatever the
outcomes on the other files. -/
theorem mem_runCollect (process : String → Except String Unit)
    (files : List String) (f e : String) (hf : f ∈ files)
    (he : process f = Except.error e) :
    (f, e) ∈ Scaffold.runCollect process files := by
  induction files with
  | nil => cases hf
  | cons g rest ih =>
      rcases List.mem_cons.mp hf with h1 | h2
      · subst h1
        simp [Scaffold.runCollect, he]
      · simp only [Scaffold.runCollect]
        exact List.mem_append_right _ (ih h2)

/-- Claim C7: every file is attempted independently — each per-file
failure is collected (a failure on one file never drops another file's
failure), all failures are reported together, and the process then
exits with status 1. -/
theorem run_collects_all_failures (process : String → Except String Unit)
    (files : List String) (f e : String) (hf : f ∈ files)
    (he : process f = Except.error e) :
    (f, e) ∈ (Scaffold.run process files).reported
    ∧ (Scaffold.run process files).exitCode = some 1 := by
  have hmem := mem_runCollect process files f e hf he
  have hne : (Scaffold.runCollect process files).isEmpty = false := by
    cases hcoll : Scaffold.runCollect process files with
    | nil => rw [hcoll] at hmem; cases hmem
    | cons a b => simp [List.isEmpty]
  constructor <;> simp [Scaffold.run, hne, hmem]

/-- Witness for the Claim C7 theorem: three files, the first and third
fail, and the third file's failure is still collected and reported. -/
theorem run_collects_all_failures_witness :
    ("c.tree", "could not scaffold c.tree")
        ∈ (Scaffold.run witnessProcess ["a.tree", "b.tree", "c.tree"]).reported
    ∧ (Scaffold.run witnessProcess ["a.tree", "b.tree", "c.tree"]).exitCode
        = some 1 :=
  run_collects_all_failures witnessProcess _ _ _ (by decide) rfl

/-- Claim C8: when reading and scaffolding succeed but the external
formatter fails, `process_file` still returns `Ok`, using the
unformatted emitted text and surfacing the warning — a formatter
failure never makes the file's processing an error. -/
theorem process_file_formatter_failure_graceful
    (readFn scaffoldFn fmtFn : String → Except String String)
    (file text emitted err : String)
    (hr : readFn file = Except.ok text)
    (hs : scaffoldFn text = Except.ok emitted)
    (hf : fmtFn emitted = Except.error err) :
    Scaffold.process_file readFn scaffoldFn fmtFn file
      = Except.ok { text := emitted, fmtWarned := true } := by
  simp [Scaffold.process_file, Bind.bind, Except.bind, pure, Except.pure,
    hr, hs, hf]

/-- Witness for the Claim C8 theorem with a concrete always-failing
formatter. -/
theorem process_file_formatter_failure_graceful_witness :
    Scaffold.process_file witnessReadFn witnessScaffoldFn witnessFmtFn
        "a.tree"
      = Except.ok
          { text := "contract FileTest \x7B\x7D", fmtWarned := true } :=
  process_file_formatter_failure_graceful _ _ _ _ _ _ _ rfl rfl rfl

/-- Witness for the Claim C10 theorem at concrete child lists. -/
theorem visit_contract_ignores_non_function_children_witness :
    EmitterI.visit_contract (Emitter.new sampleConfig) "FileTest"
        [Hir.Comment "stray", Hir.Statement StatementType.VmSkip,
         Hir.Function "test_A" FunctionTy.Test none none]
      = EmitterI.visit_contract (Emitter.new sampleConfig) "FileTest"
        [Hir.Function "test_A" FunctionTy.Test none none] :=
  visit_contract_ignores_non_function_children _ _ _ _ rfl

end Bulloak
